import Mathlib

/-!
# Verification of the quest/character/assignment service (`src/main.py`)

Shallow embedding of the FastAPI + SQLAlchemy application: the three
persisted tables (`misiones`, `personajes`, `misiones_personaje`) become
lists of rows held in a `DB` structure, each HTTP handler becomes a pure
Lean function over `DB`, and `raise HTTPException` becomes `Except.error`
carrying the status code and detail string.  SQL `first()` over an
unordered filter is the first row in table (insertion/rowid) order;
`order_by(col.asc()).first()` is the first row attaining the minimal key
(the underlying store's stable ordering breaks ties); the ordered list
query uses a stable merge sort.  Wall-clock data (`fecha_creacion`) plays
no role in any verified property and is not modelled.
-/

namespace Trabajo

/-- Row of table `misiones` (class `Mision`, main.py lines 13-21). -/
structure Mision where
  id : Nat
  nombre : String
  descripcion : String
  experiencia : Int
  deriving Repr, DecidableEq

/-- Row of table `personajes` (class `Personaje`, main.py lines 23-29). -/
structure Personaje where
  id : Nat
  nombre : String
  experiencia : Int
  deriving Repr, DecidableEq

/-- Row of table `misiones_personaje` (class `MisionPersonaje`,
main.py lines 31-41).  `estado = false` means pending, `true` resolved. -/
structure MisionPersonaje where
  id : Nat
  personaje_id : Nat
  mision_id : Nat
  orden : Int
  estado : Bool
  deriving Repr, DecidableEq

/-- The persistent store: the three tables in rowid (insertion) order plus
the autoincrement counters. -/
structure DB where
  misiones : List Mision
  personajes : List Personaje
  relaciones : List MisionPersonaje
  nextMisionId : Nat
  nextPersonajeId : Nat
  nextRelacionId : Nat
  deriving Repr, DecidableEq

/-- The empty database produced by `Base.metadata.create_all`. -/
def DB.empty : DB := ⟨[], [], [], 1, 1, 1⟩

/-- `raise HTTPException(status_code, detail)`. -/
structure Http where
  status : Nat
  detail : String
  deriving Repr, DecidableEq

/-- Replace the first row satisfying `p` (the single ORM object returned by
`.first()` that the handler then mutates in place). -/
def updateFirst (p : α → Bool) (f : α → α) : List α → List α
  | [] => []
  | x :: xs => if p x then f x :: xs else x :: updateFirst p f xs

/-- Delete the first row satisfying `p` (`db.delete(obj)` on the object
returned by `.first()`). -/
def removeFirst (p : α → Bool) : List α → List α
  | [] => []
  | x :: xs => if p x then xs else x :: removeFirst p xs

/-- `query(...).filter_by(...).order_by(orden.asc()).first()`: the first
row (in table order) attaining the minimal `orden` among `l`. -/
def firstAsc (l : List MisionPersonaje) : Option MisionPersonaje :=
  match l with
  | [] => none
  | x :: xs => some (xs.foldl (fun b r => if r.orden < b.orden then r else b) x)

/-- `query(...).filter_by(...).order_by(orden.desc()).first()`: the first
row (in table order) attaining the maximal `orden` among `l`. -/
def firstDesc (l : List MisionPersonaje) : Option MisionPersonaje :=
  match l with
  | [] => none
  | x :: xs => some (xs.foldl (fun b r => if b.orden < r.orden then r else b) x)

/-- Stable insertion of a joined row into a list sorted ascending by the
assignment's `orden`: the new row goes after every row whose key is `≤`
its own, so rows with equal keys keep their original (table) order. -/
def insOrden (a : MisionPersonaje × Mision) :
    List (MisionPersonaje × Mision) → List (MisionPersonaje × Mision)
  | [] => [a]
  | b :: bs => if b.1.orden ≤ a.1.orden then b :: insOrden a bs else a :: b :: bs

/-- Stable sort ascending by `orden` (`ORDER BY orden ASC`): ties keep the
store's underlying row order, as the source adds no secondary sort key. -/
def sortOrden : List (MisionPersonaje × Mision) → List (MisionPersonaje × Mision)
  | [] => []
  | a :: as' => insOrden a (sortOrden as')

/-- The rows of `misiones_personaje` for character `pid` that are pending
(`estado == False`). -/
def pendientes (db : DB) (pid : Nat) : List MisionPersonaje :=
  db.relaciones.filter (fun r => r.personaje_id == pid && r.estado == false)

/-- Request body of `POST /misiones` (`MisionCreate`, main.py lines 48-51). -/
structure MisionCreate where
  nombre : String
  descripcion : String
  experiencia : Int
  deriving Repr, DecidableEq

/-- `GET /misiones/{id}` (`obtener_mision`, main.py lines 106-111). -/
def obtenerMision (db : DB) (id : Nat) : Except Http Mision :=
  match db.misiones.find? (fun m => m.id == id) with
  | none => .error ⟨404, "Misión no encontrada"⟩
  | some m => .ok m

/-- `POST /misiones` (`crear_mision`, main.py lines 113-119): insert a new
quest with the next autoincrement id. -/
def crearMision (db : DB) (m : MisionCreate) : DB × Mision :=
  let nueva : Mision := ⟨db.nextMisionId, m.nombre, m.descripcion, m.experiencia⟩
  ({ db with misiones := db.misiones ++ [nueva], nextMisionId := db.nextMisionId + 1 },
   nueva)

/-- `PUT /misiones/{id}` (`actualizar_mision`, main.py lines 121-129). -/
def actualizarMision (db : DB) (id : Nat) (descripcion : String) :
    Except Http (DB × Mision) :=
  match db.misiones.find? (fun m => m.id == id) with
  | none => .error ⟨404, "Misión no encontrada"⟩
  | some m =>
    .ok ({ db with misiones :=
            (updateFirst (fun x => x.id == id)
              (fun x => { x with descripcion := descripcion }) db.misiones) },
         { m with descripcion := descripcion })

/-- `DELETE /misiones/{id}` (`eliminar_mision`, main.py lines 131-138):
remove the quest row.  (SQLAlchemy's default relationship cascade would
additionally de-associate `misiones_personaje` rows referencing the
deleted quest by nulling their foreign key; here those rows simply keep a
quest id that no longer matches any `Mision` row.  The two readings are
observationally equal for every property proved in this file: either way
the assignment stays pending and its quest reference resolves to no
existing quest.) -/
def eliminarMision (db : DB) (id : Nat) : Except Http DB :=
  match db.misiones.find? (fun m => m.id == id) with
  | none => .error ⟨404, "Misión no encontrada"⟩
  | some _ => .ok { db with misiones := removeFirst (fun m => m.id == id) db.misiones }

/-- `GET /personajes` (`obtener_personajes`, main.py lines 140-142). -/
def obtenerPersonajes (db : DB) : List Personaje := db.personajes

/-- `POST /personajes` (`crear_personaje`, main.py lines 144-150): insert a
character; column `experiencia` takes its declared default 0. -/
def crearPersonaje (db : DB) (nombre : String) : DB × Personaje :=
  let nuevo : Personaje := ⟨db.nextPersonajeId, nombre, 0⟩
  ({ db with
      personajes := db.personajes ++ [nuevo],
      nextPersonajeId := db.nextPersonajeId + 1 }, nuevo)

/-- Body of `try:` in `obtener_misiones_por_personaje` (main.py lines
89-100): 404 when the character is absent, else the pending assignments of
the character inner-joined with `misiones` (an assignment whose quest id
matches no quest row drops out of the join), ordered ascending by `orden`
with the store's stable ordering breaking ties, projected to the quests. -/
def obtenerMisionesCore (db : DB) (pid : Nat) : Except Http (List Mision) :=
  match db.personajes.find? (fun p => p.id == pid) with
  | none => .error ⟨404, "Personaje no encontrado"⟩
  | some _ =>
    let pares := (db.relaciones.filter
        (fun r => r.personaje_id == pid && r.estado == false)).filterMap
      (fun r => (db.misiones.find? (fun m => m.id == r.mision_id)).map (fun m => (r, m)))
    .ok ((sortOrden pares).map (fun rm => rm.2))

/-- `GET /misiones?personaje_id=` (`obtener_misiones_por_personaje`,
main.py lines 87-104).  The whole body runs inside
`try: ... except Exception`, and FastAPI's `HTTPException` is a subclass
of `Exception`, so the 404 raised inside the `try` is caught and
re-raised as a 500 whose detail wraps `str(e)` (`"404: <detail>"`). -/
def obtenerMisionesPorPersonaje (db : DB) (pid : Nat) : Except Http (List Mision) :=
  match obtenerMisionesCore db pid with
  | .ok ms => .ok ms
  | .error e =>
    .error ⟨500, "Error interno: " ++ toString e.status ++ ": " ++ e.detail⟩

/-- `POST /aceptar_mision` (`aceptar_mision`, main.py lines 152-181).
`orden` is the request field, pydantic default 0. -/
def aceptarMision (db : DB) (pid mid : Nat) (orden : Int) : Except Http DB :=
  match db.personajes.find? (fun p => p.id == pid) with
  | none => .error ⟨404, "Personaje no encontrado"⟩
  | some _ =>
    match db.misiones.find? (fun m => m.id == mid) with
    | none => .error ⟨404, "Misión no encontrada"⟩
    | some _ =>
      match db.relaciones.find?
          (fun r => r.personaje_id == pid && r.mision_id == mid && r.estado == false) with
      | some _ => .error ⟨400, "La misión ya fue aceptada por este personaje"⟩
      | none =>
        .ok { db with
          relaciones := db.relaciones ++ [⟨db.nextRelacionId, pid, mid, orden, false⟩],
          nextRelacionId := db.nextRelacionId + 1 }

/-- `POST /completar_mision` (`completar_mision`, main.py lines 183-210).
On success returns the new store together with `experiencia_ganada` and
`experiencia_total`. -/
def completarMision (db : DB) (pid mid : Nat) : Except Http (DB × Int × Int) :=
  match db.misiones.find? (fun m => m.id == mid) with
  | none => .error ⟨404, "Misión no encontrada"⟩
  | some m =>
    match db.personajes.find? (fun p => p.id == pid) with
    | none => .error ⟨404, "Personaje no encontrado"⟩
    | some p =>
      match firstAsc (db.relaciones.filter
          (fun r => r.personaje_id == pid && r.mision_id == mid && r.estado == false)) with
      | none => .error ⟨400, "El personaje no tiene asignada esta misión"⟩
      | some r =>
        if r.estado then
          .error ⟨400, "La misión ya fue completada para este personaje"⟩
        else
          .ok ({ db with
              personajes := (updateFirst (fun q => q.id == pid)
                (fun q => { q with experiencia := q.experiencia + m.experiencia })
                db.personajes),
              relaciones := (updateFirst (fun x => x.id == r.id)
                (fun x => { x with estado := true }) db.relaciones) },
            m.experiencia, p.experiencia + m.experiencia)

namespace ColaMisiones

/-- `ColaMisiones.enqueue` (main.py lines 218-231), endpoint
`POST /cola/{personaje_id}/enqueue`: next `orden` is the maximal `orden`
over ALL of the character's assignment rows (resolved included) plus one,
or 0 when the character has none; no existence or duplicate check. -/
def enqueue (db : DB) (pid mid : Nat) : DB × String :=
  let max_orden := firstDesc (db.relaciones.filter (fun r => r.personaje_id == pid))
  let siguiente_orden : Int := match max_orden with
    | some r => r.orden + 1
    | none => 0
  ({ db with
     relaciones := db.relaciones ++ [⟨db.nextRelacionId, pid, mid, siguiente_orden, false⟩],
     nextRelacionId := db.nextRelacionId + 1 },
   "Misión encolada correctamente")

/-- `ColaMisiones.dequeue` (main.py lines 233-244), endpoint
`POST /cola/{personaje_id}/dequeue`: delete the pending assignment with
the smallest `orden` and return its quest id; 404 when none is pending. -/
def dequeue (db : DB) (pid : Nat) : Except Http (DB × Nat) :=
  match firstAsc (pendientes db pid) with
  | none => .error ⟨404, "La cola está vacía"⟩
  | some primera =>
    .ok ({ db with relaciones := removeFirst (fun r => r.id == primera.id) db.relaciones },
         primera.mision_id)

/-- `ColaMisiones.first` (main.py lines 246-254): peek at the quest of the
earliest pending assignment (`primera.mision` is relationship navigation,
`none` when the quest row no longer exists). -/
def first (db : DB) (pid : Nat) : Except Http (Option Mision) :=
  match firstAsc (pendientes db pid) with
  | none => .error ⟨404, "La cola está vacía"⟩
  | some primera => .ok (db.misiones.find? (fun m => m.id == primera.mision_id))

/-- `ColaMisiones.size` (main.py lines 263-268): count of the character's
pending assignments. -/
def size (db : DB) (pid : Nat) : Nat :=
  (db.relaciones.filter (fun r => r.personaje_id == pid && r.estado == false)).length

/-- `ColaMisiones.is_empty` (main.py lines 256-261). -/
def is_empty (db : DB) (pid : Nat) : Bool :=
  (db.relaciones.filter (fun r => r.personaje_id == pid && r.estado == false)).length == 0

end ColaMisiones

/-- One state-mutating API call of the service.  Fallible handlers step
only when they succeed; a failed call raises before mutating anything and
leaves the store as it was. -/
inductive Step : DB → DB → Prop where
  | creaMision (db : DB) (m : MisionCreate) : Step db (crearMision db m).1
  | creaPersonaje (db : DB) (nombre : String) : Step db (crearPersonaje db nombre).1
  | actualiza (db db' : DB) (id : Nat) (d : String) (m : Mision)
      (h : actualizarMision db id d = .ok (db', m)) : Step db db'
  | elimina (db db' : DB) (id : Nat) (h : eliminarMision db id = .ok db') : Step db db'
  | acepta (db db' : DB) (pid mid : Nat) (orden : Int)
      (h : aceptarMision db pid mid orden = .ok db') : Step db db'
  | completa (db db' : DB) (pid mid : Nat) (g t : Int)
      (h : completarMision db pid mid = .ok (db', g, t)) : Step db db'
  | encola (db : DB) (pid mid : Nat) : Step db (ColaMisiones.enqueue db pid mid).1
  | desencola (db db' : DB) (pid mid : Nat)
      (h : ColaMisiones.dequeue db pid = .ok (db', mid)) : Step db db'

/-- Store states reachable from the freshly created (empty) schema through
the HTTP surface. -/
inductive Reachable : DB → Prop where
  | init : Reachable DB.empty
  | step {db db' : DB} : Reachable db → Step db db' → Reachable db'

/-- The pending rows of `misiones_personaje` for the exact (character,
quest) pair: the `filter_by(personaje_id=..., mision_id=..., estado=False)`
row set that `completar_mision` and `aceptar_mision` query. -/
def asignadas (db : DB) (pid mid : Nat) : List MisionPersonaje :=
  db.relaciones.filter
    (fun x => x.personaje_id == pid && x.mision_id == mid && x.estado == false)

/-! ### Lemmas about the query helpers -/

lemma foldAsc_spec (t : List MisionPersonaje) (x : MisionPersonaje) :
    t.foldl (fun b r => if r.orden < b.orden then r else b) x ∈ x :: t ∧
    ∀ y ∈ x :: t,
      (t.foldl (fun b r => if r.orden < b.orden then r else b) x).orden ≤ y.orden := by
  induction t generalizing x with
  | nil => simp
  | cons a t ih =>
    rw [List.foldl_cons]
    by_cases hax : a.orden < x.orden
    · rw [if_pos hax]
      have h := ih a
      refine ⟨?_, ?_⟩
      · rcases List.mem_cons.mp h.1 with h1 | h1
        · rw [h1]; exact List.mem_cons_of_mem _ (List.mem_cons_self _ _)
        · exact List.mem_cons_of_mem _ (List.mem_cons_of_mem _ h1)
      · intro y hy
        have hsel := h.2 _ (List.mem_cons_self a t)
        rcases List.mem_cons.mp hy with rfl | hy'
        · omega
        · rcases List.mem_cons.mp hy' with rfl | hy''
          · exact hsel
          · exact h.2 _ (List.mem_cons_of_mem _ hy'')
    · rw [if_neg hax]
      have h := ih x
      refine ⟨?_, ?_⟩
      · rcases List.mem_cons.mp h.1 with h1 | h1
        · rw [h1]; exact List.mem_cons_self _ _
        · exact List.mem_cons_of_mem _ (List.mem_cons_of_mem _ h1)
      · intro y hy
        have hsel := h.2 _ (List.mem_cons_self x t)
        rcases List.mem_cons.mp hy with rfl | hy'
        · exact hsel
        · rcases List.mem_cons.mp hy' with rfl | hy''
          · omega
          · exact h.2 _ (List.mem_cons_of_mem _ hy'')

lemma firstAsc_eq_none_iff (l : List MisionPersonaje) :
    firstAsc l = none ↔ l = [] := by
  cases l <;> simp [firstAsc]

lemma firstAsc_isSome (l : List MisionPersonaje) (h : l ≠ []) :
    ∃ r, firstAsc l = some r := by
  cases l with
  | nil => exact absurd rfl h
  | cons x xs => exact ⟨_, rfl⟩

lemma firstAsc_mem (l : List MisionPersonaje) (r : MisionPersonaje)
    (h : firstAsc l = some r) : r ∈ l := by
  cases l with
  | nil => simp [firstAsc] at h
  | cons x xs =>
    simp only [firstAsc, Option.some.injEq] at h
    rw [← h]; exact (foldAsc_spec xs x).1

lemma firstAsc_min (l : List MisionPersonaje) (r : MisionPersonaje)
    (h : firstAsc l = some r) : ∀ y ∈ l, r.orden ≤ y.orden := by
  cases l with
  | nil => simp [firstAsc] at h
  | cons x xs =>
    simp only [firstAsc, Option.some.injEq] at h
    rw [← h]; exact (foldAsc_spec xs x).2

lemma foldDesc_spec (t : List MisionPersonaje) (x : MisionPersonaje) :
    t.foldl (fun b r => if b.orden < r.orden then r else b) x ∈ x :: t ∧
    ∀ y ∈ x :: t,
      y.orden ≤ (t.foldl (fun b r => if b.orden < r.orden then r else b) x).orden := by
  induction t generalizing x with
  | nil => simp
  | cons a t ih =>
    rw [List.foldl_cons]
    by_cases hax : x.orden < a.orden
    · rw [if_pos hax]
      have h := ih a
      refine ⟨?_, ?_⟩
      · rcases List.mem_cons.mp h.1 with h1 | h1
        · rw [h1]; exact List.mem_cons_of_mem _ (List.mem_cons_self _ _)
        · exact List.mem_cons_of_mem _ (List.mem_cons_of_mem _ h1)
      · intro y hy
        have hsel := h.2 _ (List.mem_cons_self a t)
        rcases List.mem_cons.mp hy with rfl | hy'
        · omega
        · rcases List.mem_cons.mp hy' with rfl | hy''
          · exact hsel
          · exact h.2 _ (List.mem_cons_of_mem _ hy'')
    · rw [if_neg hax]
      have h := ih x
      refine ⟨?_, ?_⟩
      · rcases List.mem_cons.mp h.1 with h1 | h1
        · rw [h1]; exact List.mem_cons_self _ _
        · exact List.mem_cons_of_mem _ (List.mem_cons_of_mem _ h1)
      · intro y hy
        have hsel := h.2 _ (List.mem_cons_self x t)
        rcases List.mem_cons.mp hy with rfl | hy'
        · exact hsel
        · rcases List.mem_cons.mp hy' with rfl | hy''
          · omega
          · exact h.2 _ (List.mem_cons_of_mem _ hy'')

lemma firstDesc_eq_none_iff (l : List MisionPersonaje) :
    firstDesc l = none ↔ l = [] := by
  cases l <;> simp [firstDesc]

lemma firstDesc_mem (l : List MisionPersonaje) (r : MisionPersonaje)
    (h : firstDesc l = some r) : r ∈ l := by
  cases l with
  | nil => simp [firstDesc] at h
  | cons x xs =>
    simp only [firstDesc, Option.some.injEq] at h
    rw [← h]; exact (foldDesc_spec xs x).1

lemma firstDesc_max (l : List MisionPersonaje) (r : MisionPersonaje)
    (h : firstDesc l = some r) : ∀ y ∈ l, y.orden ≤ r.orden := by
  cases l with
  | nil => simp [firstDesc] at h
  | cons x xs =>
    simp only [firstDesc, Option.some.injEq] at h
    rw [← h]; exact (foldDesc_spec xs x).2

lemma find?_updateFirst (p : α → Bool) (f : α → α)
    (hpf : ∀ x, p x = true → p (f x) = true) (l : List α) :
    (updateFirst p f l).find? p = (l.find? p).map f := by
  induction l with
  | nil => rfl
  | cons x xs ih =>
    by_cases hx : p x = true
    · simp [updateFirst, hx, List.find?_cons, hpf x hx]
    · have hx' : p x = false := by revert hx; cases p x <;> simp
      simp [updateFirst, hx', List.find?_cons, ih]

lemma length_insOrden (a : MisionPersonaje × Mision)
    (l : List (MisionPersonaje × Mision)) :
    (insOrden a l).length = l.length + 1 := by
  induction l with
  | nil => rfl
  | cons b bs ih =>
    by_cases h : b.1.orden ≤ a.1.orden <;> simp [insOrden, h, ih]

lemma length_sortOrden (l : List (MisionPersonaje × Mision)) :
    (sortOrden l).length = l.length := by
  induction l with
  | nil => rfl
  | cons a as' ih => simp [sortOrden, length_insOrden, ih]

lemma length_filterMap_of_isSome (f : α → Option β) (l : List α)
    (h : ∀ x ∈ l, (f x).isSome) : (l.filterMap f).length = l.length := by
  induction l with
  | nil => rfl
  | cons x xs ih =>
    rcases Option.isSome_iff_exists.mp (h x (List.mem_cons_self _ _)) with ⟨b, hb⟩
    rw [List.filterMap_cons, hb]
    simp only [List.length_cons]
    rw [ih (fun y hy => h y (List.mem_cons_of_mem _ hy))]

lemma filter_updateFirst_singleton (P : MisionPersonaje → Bool)
    (f : MisionPersonaje → MisionPersonaje) (l : List MisionPersonaje)
    (r : MisionPersonaje)
    (hnodup : l.Pairwise (fun a b => a.id ≠ b.id))
    (hfil : l.filter P = [r])
    (hf : P (f r) = false) (hid : (f r).id = r.id) :
    (updateFirst (fun x => x.id == r.id) f l).filter P = [] := by
  induction l with
  | nil => simp at hfil
  | cons a t ih =>
    rcases List.pairwise_cons.mp hnodup with ⟨ha, ht⟩
    by_cases hPa : P a = true
    · rw [List.filter_cons_of_pos hPa] at hfil
      have har : a = r := by
        have := List.cons.injEq a (t.filter P) r [] ▸ hfil
        exact (List.cons.inj hfil).1
      have hft : t.filter P = [] := (List.cons.inj hfil).2
      subst har
      simp only [updateFirst, beq_self_eq_true, if_pos]
      rw [List.filter_cons_of_neg (by simp [hf]), hft]
    · have hPa' : P a = false := by revert hPa; cases P a <;> simp
      rw [List.filter_cons_of_neg (by simp [hPa'])] at hfil
      have hrt : r ∈ t := List.mem_of_mem_filter (hfil ▸ List.mem_singleton.mpr rfl)
      have hane : (a.id == r.id) = false := by
        simpa using ha r hrt
      simp only [updateFirst, hane]
      rw [if_neg (by simp [hane])]
      rw [List.filter_cons_of_neg (by simp [hPa'])]
      exact ih ht hfil

/-! ### Concrete store states used by witnesses and counterexamples -/

/-- After `POST /personajes` with name "Aria". -/
def dbAria : DB := (crearPersonaje DB.empty "Aria").1

/-- After additionally creating quest "Slay Dragon" worth 50 experience. -/
def dbDragon : DB := (crearMision dbAria ⟨"Slay Dragon", "", 50⟩).1

/-- After Aria accepts "Slay Dragon": the state `aceptar_mision` commits. -/
def dbAcc : DB :=
  ⟨[⟨1, "Slay Dragon", "", 50⟩], [⟨1, "Aria", 0⟩], [⟨1, 1, 1, 0, false⟩], 2, 2, 2⟩

/-- Aria exists but her only pending assignment references quest id 999,
which does not exist (inserted through the unvalidated enqueue endpoint). -/
def dbC3 : DB := (ColaMisiones.enqueue dbAria 1 999).1

/-- Aria has one pending assignment for quest 1 at order 0. -/
def dbC4 : DB := (ColaMisiones.enqueue dbAria 1 1).1

/-- Aria holds two pending assignments for the same quest 1 (orders 0 and
1), both inserted through enqueue, which performs no duplicate check. -/
def dbDup : DB :=
  (ColaMisiones.enqueue (ColaMisiones.enqueue dbDragon 1 1).1 1 1).1

/-- `dbDup` after one successful `completar_mision(1, 1)`: the order-0 row
is resolved, the order-1 duplicate is still pending. -/
def dbDupA : DB :=
  ⟨[⟨1, "Slay Dragon", "", 50⟩], [⟨1, "Aria", 50⟩],
   [⟨1, 1, 1, 0, true⟩, ⟨2, 1, 1, 1, false⟩], 2, 2, 3⟩

/-- `dbDupA` after a second successful `completar_mision(1, 1)`. -/
def dbDupB : DB :=
  ⟨[⟨1, "Slay Dragon", "", 50⟩], [⟨1, "Aria", 100⟩],
   [⟨1, 1, 1, 0, true⟩, ⟨2, 1, 1, 1, true⟩], 2, 2, 3⟩

/-- Quest "Maldición" carries a negative experience reward (the API
accepts any integer). -/
def dbNegQ : DB := (crearMision dbAria ⟨"Maldición", "", -5⟩).1

/-- Aria has accepted "Maldición". -/
def dbNegA : DB :=
  ⟨[⟨1, "Maldición", "", -5⟩], [⟨1, "Aria", 0⟩], [⟨1, 1, 1, 0, false⟩], 2, 2, 2⟩

/-- Aria after completing "Maldición": her stored experience is -5. -/
def dbNeg : DB :=
  ⟨[⟨1, "Maldición", "", -5⟩], [⟨1, "Aria", -5⟩], [⟨1, 1, 1, 0, true⟩], 2, 2, 2⟩

/-! ### Claim theorems -/

/-- C2: listing the active quests of a nonexistent character does NOT
answer 404.  The handler raises `HTTPException(404)` inside its own
`try`/`except Exception` block, so the exception is caught and re-raised
as HTTP 500 ("Error interno: ..."), contradicting both the claim and the
handler's visible intent: on the empty store, `GET /misiones?personaje_id=1`
yields status 500. -/
theorem C2_personaje_inexistente_da_500 :
    obtenerMisionesPorPersonaje DB.empty 1
      = .error ⟨500, "Error interno: 404: Personaje no encontrado"⟩ ∧
    (500 : Nat) ≠ 404 := ⟨rfl, by decide⟩

/-- C3 counterexample: in the reachable state `dbC3` (character "Aria"
exists; her single pending assignment references quest id 999, which does
not exist), `size(1)` is 1 but `listActiveQuests(1)` returns the empty
list, because the listing inner-joins the `misiones` table.  So size is
not always the length of the active-quest listing. -/
theorem C3_contraejemplo :
    Reachable dbC3 ∧
    ColaMisiones.size dbC3 1 = 1 ∧
    obtenerMisionesPorPersonaje dbC3 1 = .ok [] ∧
    ([] : List Mision).length ≠ ColaMisiones.size dbC3 1 := by
  have h1 : Reachable dbAria :=
    Reachable.step Reachable.init (Step.creaPersonaje DB.empty "Aria")
  exact ⟨Reachable.step h1 (Step.encola dbAria 1 999), rfl, rfl, by decide⟩

/-- C3 amended: for every store state and existing character, `size`
equals the count of the character's pending assignments, and it equals
the length of the active-quest listing provided every pending assignment
references an existing quest (the listing inner-joins `misiones`, so a
pending assignment whose quest is missing is counted by `size` but
dropped from the listing). -/
theorem C3_enmendado (db : DB) (pid : Nat) (P : Personaje)
    (hp : db.personajes.find? (fun p => p.id == pid) = some P)
    (hall : ∀ r ∈ pendientes db pid,
      (db.misiones.find? (fun m => m.id == r.mision_id)).isSome) :
    ColaMisiones.size db pid = (pendientes db pid).length ∧
    ∃ ms, obtenerMisionesPorPersonaje db pid = .ok ms ∧
      ms.length = ColaMisiones.size db pid := by
  refine ⟨rfl, ?_⟩
  have hcore : obtenerMisionesCore db pid = .ok
      ((sortOrden ((db.relaciones.filter
          (fun r => r.personaje_id == pid && r.estado == false)).filterMap
        (fun r => (db.misiones.find? (fun m => m.id == r.mision_id)).map
          (fun m => (r, m))))).map (fun rm => rm.2)) := by
    simp only [obtenerMisionesCore, hp]
  refine ⟨(sortOrden ((db.relaciones.filter
        (fun r => r.personaje_id == pid && r.estado == false)).filterMap
      (fun r => (db.misiones.find? (fun m => m.id == r.mision_id)).map
        (fun m => (r, m))))).map (fun rm => rm.2), ?_, ?_⟩
  · simp only [obtenerMisionesPorPersonaje, hcore]
  · rw [List.length_map, length_sortOrden, length_filterMap_of_isSome]
    · rfl
    · intro x hx
      have := hall x hx
      cases hfind : db.misiones.find? (fun m => m.id == x.mision_id) with
      | none => rw [hfind] at this; simp at this
      | some m => simp [hfind]

/-- C3 amended, witness: on the state where only "Aria" exists, `size` is
0 and the listing is empty. -/
theorem C3_enmendado_witness :
    ColaMisiones.size dbAria 1 = (pendientes dbAria 1).length ∧
    ∃ ms, obtenerMisionesPorPersonaje dbAria 1 = .ok ms ∧
      ms.length = ColaMisiones.size dbAria 1 :=
  C3_enmendado dbAria 1 ⟨1, "Aria", 0⟩ rfl (by intro r hr; simp [pendientes, dbAria, crearPersonaje, DB.empty] at hr)

/-- C4 counterexample: in the reachable state `dbC4`, character 1 already
has a pending assignment for quest 1 at order 0; enqueueing quest 2 and
then immediately dequeueing (no intervening enqueue) returns quest id 1,
not the just-enqueued 2, because dequeue removes the smallest-order
pending row. -/
theorem C4_contraejemplo :
    Reachable dbC4 ∧
    ColaMisiones.dequeue (ColaMisiones.enqueue dbC4 1 2).1 1
      = .ok (⟨[], [⟨1, "Aria", 0⟩], [⟨2, 1, 2, 1, false⟩], 1, 2, 3⟩, 1) ∧
    (1 : Nat) ≠ 2 := by
  have h1 : Reachable dbAria :=
    Reachable.step Reachable.init (Step.creaPersonaje DB.empty "Aria")
  exact ⟨Reachable.step h1 (Step.encola dbAria 1 1), rfl, by decide⟩

/-- C4 amended: enqueue followed immediately by dequeue returns the
enqueued quest id provided the character's queue was empty (no pending
assignment) beforehand; with a nonempty queue, dequeue returns the
earliest pending quest instead. -/
theorem C4_enmendado (db : DB) (pid mid : Nat) (h : pendientes db pid = []) :
    (ColaMisiones.dequeue (ColaMisiones.enqueue db pid mid).1 pid).map
      (fun x => x.2) = .ok mid := by
  obtain ⟨o, he⟩ : ∃ o : Int, (ColaMisiones.enqueue db pid mid).1.relaciones
      = db.relaciones ++ [⟨db.nextRelacionId, pid, mid, o, false⟩] := ⟨_, rfl⟩
  have hq : pendientes (ColaMisiones.enqueue db pid mid).1 pid
      = [⟨db.nextRelacionId, pid, mid, o, false⟩] := by
    simp only [pendientes, he, List.filter_append]
    have h' : db.relaciones.filter
        (fun r => r.personaje_id == pid && r.estado == false) = [] := h
    rw [h']
    simp
  simp only [ColaMisiones.dequeue, hq, firstAsc, List.foldl_nil, Except.map]

/-- C4 amended, witness: on the empty store, enqueue then dequeue for
character 1 returns the enqueued quest id 2. -/
theorem C4_enmendado_witness :
    (ColaMisiones.dequeue (ColaMisiones.enqueue DB.empty 1 2).1 1).map
      (fun x => x.2) = .ok 2 :=
  C4_enmendado DB.empty 1 2 rfl

/-- C1: when the character and the quest exist and a pending assignment
for the pair exists, `completar_mision` succeeds, adds the quest's
experience reward to the character's stored experience, flips the
selected (earliest pending) assignment's resolved flag to true, and
returns the experience delta together with the new total. -/
theorem C1_completar_exito (db : DB) (pid mid : Nat) (P : Personaje) (M : Mision)
    (hm : db.misiones.find? (fun m => m.id == mid) = some M)
    (hp : db.personajes.find? (fun p => p.id == pid) = some P)
    (hpend : asignadas db pid mid ≠ []) :
    ∃ r, firstAsc (asignadas db pid mid) = some r ∧
      r ∈ db.relaciones ∧ r.personaje_id = pid ∧ r.mision_id = mid ∧
      r.estado = false ∧ (∀ y ∈ asignadas db pid mid, r.orden ≤ y.orden) ∧
      ∃ db', completarMision db pid mid
          = .ok (db', M.experiencia, P.experiencia + M.experiencia) ∧
        db'.personajes.find? (fun p => p.id == pid)
          = some { P with experiencia := P.experiencia + M.experiencia } ∧
        db'.relaciones = updateFirst (fun x => x.id == r.id)
          (fun x => { x with estado := true }) db.relaciones ∧
        db'.misiones = db.misiones := by
  obtain ⟨r, hr⟩ := firstAsc_isSome _ hpend
  have hrmem := firstAsc_mem _ _ hr
  have hrmin := firstAsc_min _ _ hr
  rw [asignadas, List.mem_filter] at hrmem
  obtain ⟨hrl, hprops⟩ := hrmem
  simp only [Bool.and_eq_true, beq_iff_eq] at hprops
  obtain ⟨⟨hpid, hmid⟩, hest⟩ := hprops
  have hr' : firstAsc (db.relaciones.filter
      (fun x => x.personaje_id == pid && x.mision_id == mid && x.estado == false))
      = some r := hr
  refine ⟨r, hr, hrl, hpid, hmid, hest, hrmin,
    ⟨{ db with
        personajes := (updateFirst (fun q => q.id == pid)
          (fun q => { q with experiencia := q.experiencia + M.experiencia })
          db.personajes),
        relaciones := (updateFirst (fun x => x.id == r.id)
          (fun x => { x with estado := true }) db.relaciones) }, ?_, ?_, rfl, rfl⟩⟩
  · simp only [completarMision, hm, hp, hr', hest]
    rfl
  · rw [find?_updateFirst (fun q => q.id == pid)
      (fun q => { q with experiencia := q.experiencia + M.experiencia })
      (fun x hx => hx) db.personajes, hp]
    rfl

/-- C1, witness: Aria (experience 0) completes "Slay Dragon" (reward 50)
from the accepted state `dbAcc`, gaining 50 for a total of 50. -/
theorem C1_completar_exito_witness :
    ∃ r, firstAsc (asignadas dbAcc 1 1) = some r ∧
      r ∈ dbAcc.relaciones ∧ r.personaje_id = 1 ∧ r.mision_id = 1 ∧
      r.estado = false ∧ (∀ y ∈ asignadas dbAcc 1 1, r.orden ≤ y.orden) ∧
      ∃ db', completarMision dbAcc 1 1 = .ok (db', (50 : Int), (0 : Int) + 50) ∧
        db'.personajes.find? (fun p => p.id == 1) = some ⟨1, "Aria", 0 + 50⟩ ∧
        db'.relaciones = updateFirst (fun x => x.id == r.id)
          (fun x => { x with estado := true }) dbAcc.relaciones ∧
        db'.misiones = dbAcc.misiones :=
  C1_completar_exito dbAcc 1 1 ⟨1, "Aria", 0⟩ ⟨1, "Slay Dragon", "", 50⟩
    rfl rfl (by decide)

/-- C5: with both entities present, `aceptar_mision` answers the 400
conflict exactly when a pending assignment for the same (character,
quest) pair already exists — a resolved assignment does not block — and
a successful accept followed immediately by the same accept makes the
second call fail with that conflict. -/
theorem C5_aceptar_conflicto (db : DB) (pid mid : Nat) (orden : Int)
    (P : Personaje) (M : Mision)
    (hp : db.personajes.find? (fun p => p.id == pid) = some P)
    (hm : db.misiones.find? (fun m => m.id == mid) = some M) :
    (aceptarMision db pid mid orden
        = .error ⟨400, "La misión ya fue aceptada por este personaje"⟩
      ↔ ∃ r ∈ db.relaciones,
          r.personaje_id = pid ∧ r.mision_id = mid ∧ r.estado = false) ∧
    ∀ db', aceptarMision db pid mid orden = .ok db' →
      aceptarMision db' pid mid orden
        = .error ⟨400, "La misión ya fue aceptada por este personaje"⟩ := by
  have hkey : ∀ (l : List MisionPersonaje),
      (l.find? (fun r =>
          r.personaje_id == pid && r.mision_id == mid && r.estado == false)).isSome
        ↔ ∃ r ∈ l, r.personaje_id = pid ∧ r.mision_id = mid ∧ r.estado = false := by
    intro l
    simp only [List.find?_isSome, Bool.and_eq_true, beq_iff_eq]
    exact ⟨fun ⟨r, h1, h2⟩ => ⟨r, h1, h2.1.1, h2.1.2, h2.2⟩,
           fun ⟨r, h1, h2, h3, h4⟩ => ⟨r, h1, ⟨h2, h3⟩, h4⟩⟩
  constructor
  · cases hfind : db.relaciones.find? (fun r =>
        r.personaje_id == pid && r.mision_id == mid && r.estado == false) with
    | some r =>
      have herr : aceptarMision db pid mid orden
          = .error ⟨400, "La misión ya fue aceptada por este personaje"⟩ := by
        simp only [aceptarMision, hp, hm, hfind]
      have hs : (db.relaciones.find? (fun r =>
          r.personaje_id == pid && r.mision_id == mid && r.estado == false)).isSome
          = true := by
        rw [hfind]; rfl
      exact ⟨fun _ => (hkey db.relaciones).mp hs, fun _ => herr⟩
    | none =>
      simp only [aceptarMision, hp, hm, hfind]
      constructor
      · intro h; cases h
      · intro h
        have := (hkey db.relaciones).mpr h
        rw [hfind] at this
        cases this
  · intro db' hok
    cases hfind : db.relaciones.find? (fun r =>
        r.personaje_id == pid && r.mision_id == mid && r.estado == false) with
    | some r =>
      simp only [aceptarMision, hp, hm, hfind] at hok
      cases hok
    | none =>
      simp only [aceptarMision, hp, hm, hfind, Except.ok.injEq] at hok
      subst hok
      simp only [aceptarMision, hp, hm, List.find?_append, hfind, Option.none_or]
      rw [List.find?_cons_of_pos _ (by simp)]

/-- C5, witness: in `dbAcc` (Aria has already accepted quest 1 and the
assignment is pending), accepting quest 1 again fails with the conflict,
and that conflict characterisation holds. -/
theorem C5_aceptar_conflicto_witness :
    (aceptarMision dbAcc 1 1 0
        = .error ⟨400, "La misión ya fue aceptada por este personaje"⟩
      ↔ ∃ r ∈ dbAcc.relaciones,
          r.personaje_id = 1 ∧ r.mision_id = 1 ∧ r.estado = false) ∧
    ∀ db', aceptarMision dbAcc 1 1 0 = .ok db' →
      aceptarMision db' 1 1 0
        = .error ⟨400, "La misión ya fue aceptada por este personaje"⟩ :=
  C5_aceptar_conflicto dbAcc 1 1 0 ⟨1, "Aria", 0⟩ ⟨1, "Slay Dragon", "", 50⟩ rfl rfl

/-- C6: `enqueue` always succeeds with the fixed success message and
inserts a new pending assignment whose `orden` is the maximum `orden`
over ALL of the character's assignment rows — resolved included — plus
one, or 0 when the character has no assignment rows; it performs no
duplicate-pending check (the insert is unconditional, whatever rows
already exist). -/
theorem C6_enqueue_orden (db : DB) (pid mid : Nat) :
    (ColaMisiones.enqueue db pid mid).2 = "Misión encolada correctamente" ∧
    ∃ o : Int,
      (ColaMisiones.enqueue db pid mid).1 = { db with
        relaciones := db.relaciones ++ [⟨db.nextRelacionId, pid, mid, o, false⟩],
        nextRelacionId := db.nextRelacionId + 1 } ∧
      ((db.relaciones.filter (fun r => r.personaje_id == pid) = [] ∧ o = 0) ∨
       (∃ r ∈ db.relaciones.filter (fun r => r.personaje_id == pid),
          o = r.orden + 1 ∧
          ∀ y ∈ db.relaciones.filter (fun r => r.personaje_id == pid),
            y.orden ≤ r.orden)) := by
  refine ⟨rfl, ?_⟩
  cases hmax : firstDesc (db.relaciones.filter (fun r => r.personaje_id == pid)) with
  | none =>
    refine ⟨0, ?_, Or.inl ⟨(firstDesc_eq_none_iff _).mp hmax, rfl⟩⟩
    simp only [ColaMisiones.enqueue, hmax]
  | some r =>
    refine ⟨r.orden + 1, ?_,
      Or.inr ⟨r, firstDesc_mem _ _ hmax, rfl, firstDesc_max _ _ hmax⟩⟩
    simp only [ColaMisiones.enqueue, hmax]

/-- C6, witness: enqueueing quest 2 for character 1 in `dbAcc` (one
existing assignment at order 0) inserts a pending row and succeeds. -/
theorem C6_enqueue_orden_witness :
    (ColaMisiones.enqueue dbAcc 1 2).2 = "Misión encolada correctamente" ∧
    ∃ o : Int,
      (ColaMisiones.enqueue dbAcc 1 2).1 = { dbAcc with
        relaciones := dbAcc.relaciones ++ [⟨dbAcc.nextRelacionId, 1, 2, o, false⟩],
        nextRelacionId := dbAcc.nextRelacionId + 1 } ∧
      ((dbAcc.relaciones.filter (fun r => r.personaje_id == 1) = [] ∧ o = 0) ∨
       (∃ r ∈ dbAcc.relaciones.filter (fun r => r.personaje_id == 1),
          o = r.orden + 1 ∧
          ∀ y ∈ dbAcc.relaciones.filter (fun r => r.personaje_id == 1),
            y.orden ≤ r.orden)) :=
  C6_enqueue_orden dbAcc 1 2

/-- C7: `dequeue` answers 404 "La cola está vacía" exactly when the
character has no pending assignment; otherwise it deletes the pending
assignment with the smallest `orden`, returns that row's quest id, and
leaves the characters table — hence every character's experience —
untouched. -/
theorem C7_dequeue_minimo (db : DB) (pid : Nat) :
    (pendientes db pid = [] →
      ColaMisiones.dequeue db pid = .error ⟨404, "La cola está vacía"⟩) ∧
    (pendientes db pid ≠ [] →
      ∃ r, firstAsc (pendientes db pid) = some r ∧
        r ∈ pendientes db pid ∧
        (∀ y ∈ pendientes db pid, r.orden ≤ y.orden) ∧
        ColaMisiones.dequeue db pid = .ok
          ({ db with relaciones := removeFirst (fun x => x.id == r.id) db.relaciones },
           r.mision_id) ∧
        ({ db with relaciones := removeFirst (fun x => x.id == r.id) db.relaciones }
            : DB).personajes = db.personajes) := by
  constructor
  · intro h
    simp only [ColaMisiones.dequeue, h, firstAsc]
  · intro h
    obtain ⟨r, hr⟩ := firstAsc_isSome _ h
    exact ⟨r, hr, firstAsc_mem _ _ hr, firstAsc_min _ _ hr,
      by simp only [ColaMisiones.dequeue, hr], rfl⟩

/-- C7, witness: in `dbAcc` the queue of character 1 holds exactly the
pending assignment of quest 1, so dequeue removes it and returns 1. -/
theorem C7_dequeue_minimo_witness :
    (pendientes dbAcc 1 = [] →
      ColaMisiones.dequeue dbAcc 1 = .error ⟨404, "La cola está vacía"⟩) ∧
    (pendientes dbAcc 1 ≠ [] →
      ∃ r, firstAsc (pendientes dbAcc 1) = some r ∧
        r ∈ pendientes dbAcc 1 ∧
        (∀ y ∈ pendientes dbAcc 1, r.orden ≤ y.orden) ∧
        ColaMisiones.dequeue dbAcc 1 = .ok
          ({ dbAcc with
              relaciones := removeFirst (fun x => x.id == r.id) dbAcc.relaciones },
           r.mision_id) ∧
        ({ dbAcc with
            relaciones := removeFirst (fun x => x.id == r.id) dbAcc.relaciones }
            : DB).personajes = dbAcc.personajes) :=
  C7_dequeue_minimo dbAcc 1

/-- C8 counterexample: in the reachable state `dbDup`, Aria holds TWO
pending assignments for quest 1 (both inserted through enqueue, which
performs no duplicate check).  `completar_mision(1,1)` then succeeds
twice in a row — the second call resolves the duplicate pending row and
grants the reward again — so a successful complete is not always
followed by an InvalidState failure. -/
theorem C8_contraejemplo :
    Reachable dbDup ∧
    dbDup.personajes.find? (fun p => p.id == 1) = some ⟨1, "Aria", 0⟩ ∧
    dbDup.misiones.find? (fun m => m.id == 1) = some ⟨1, "Slay Dragon", "", 50⟩ ∧
    completarMision dbDup 1 1 = .ok (dbDupA, 50, 50) ∧
    completarMision dbDupA 1 1 = .ok (dbDupB, 50, 100) := by
  have h1 : Reachable dbAria :=
    Reachable.step Reachable.init (Step.creaPersonaje DB.empty "Aria")
  have h2 : Reachable dbDragon :=
    Reachable.step h1 (Step.creaMision dbAria ⟨"Slay Dragon", "", 50⟩)
  have h3 : Reachable (ColaMisiones.enqueue dbDragon 1 1).1 :=
    Reachable.step h2 (Step.encola dbDragon 1 1)
  exact ⟨Reachable.step h3 (Step.encola _ 1 1), rfl, rfl, rfl, rfl⟩

/-- C8 amended: with both entities present, `completar_mision` fails with
the 400 "no assignment" error exactly in the no-pending case; and it is
non-repeatable when the pair had exactly ONE pending assignment (as is
guaranteed when assignments are created through accept, which rejects
duplicates): under the primary-key uniqueness of assignment ids, a
successful complete then leaves no pending row for the pair, so the
immediately following complete fails with the 400 error.  With duplicate
pending rows (possible through enqueue) the second call succeeds instead. -/
theorem C8_enmendado (db : DB) (pid mid : Nat) (P : Personaje) (M : Mision)
    (hp : db.personajes.find? (fun p => p.id == pid) = some P)
    (hm : db.misiones.find? (fun m => m.id == mid) = some M) :
    (asignadas db pid mid = [] →
      completarMision db pid mid
        = .error ⟨400, "El personaje no tiene asignada esta misión"⟩) ∧
    (∀ r, db.relaciones.Pairwise (fun a b => a.id ≠ b.id) →
      asignadas db pid mid = [r] →
      ∀ db' g t, completarMision db pid mid = .ok (db', g, t) →
        completarMision db' pid mid
          = .error ⟨400, "El personaje no tiene asignada esta misión"⟩) := by
  constructor
  · intro h
    have h0 : firstAsc (db.relaciones.filter
        (fun x => x.personaje_id == pid && x.mision_id == mid && x.estado == false))
        = none := (firstAsc_eq_none_iff _).mpr h
    simp only [completarMision, hm, hp, h0]
  · intro r hnodup hone db' g t hok
    have h1 : firstAsc (db.relaciones.filter
        (fun x => x.personaje_id == pid && x.mision_id == mid && x.estado == false))
        = some r := by
      have h1' : asignadas db pid mid = [r] := hone
      rw [asignadas] at h1'
      rw [h1']
      rfl
    have hrmem : r ∈ asignadas db pid mid := by
      rw [hone]; exact List.mem_singleton.mpr rfl
    rw [asignadas, List.mem_filter] at hrmem
    have hest : r.estado = false := by
      have h2 := hrmem.2
      simp only [Bool.and_eq_true, beq_iff_eq] at h2
      exact h2.2
    have hcomp : completarMision db pid mid = .ok
        ({ db with
            personajes := (updateFirst (fun q => q.id == pid)
              (fun q => { q with experiencia := q.experiencia + M.experiencia })
              db.personajes),
            relaciones := (updateFirst (fun x => x.id == r.id)
              (fun x => { x with estado := true }) db.relaciones) },
          M.experiencia, P.experiencia + M.experiencia) := by
      simp only [completarMision, hm, hp, h1, hest]
      rfl
    rw [hcomp] at hok
    injection hok with hpair
    injection hpair with hdb hgt
    subst hdb
    have hp' : (updateFirst (fun q => q.id == pid)
        (fun q => { q with experiencia := q.experiencia + M.experiencia })
        db.personajes).find? (fun p => p.id == pid)
        = some { P with experiencia := P.experiencia + M.experiencia } := by
      rw [find?_updateFirst (fun q => q.id == pid)
        (fun q => { q with experiencia := q.experiencia + M.experiencia })
        (fun x hx => hx) db.personajes, hp]
      rfl
    have hfil : (updateFirst (fun x => x.id == r.id)
        (fun x => { x with estado := true }) db.relaciones).filter
        (fun x => x.personaje_id == pid && x.mision_id == mid && x.estado == false)
        = [] := by
      refine filter_updateFirst_singleton _ _ _ _ hnodup hone ?_ rfl
      simp
    have h0 : firstAsc ((updateFirst (fun x => x.id == r.id)
        (fun x => { x with estado := true }) db.relaciones).filter
        (fun x => x.personaje_id == pid && x.mision_id == mid && x.estado == false))
        = none := (firstAsc_eq_none_iff _).mpr hfil
    simp only [completarMision, hm, hp', h0]

/-- C8 amended, witness: from `dbAcc` (exactly one pending assignment for
(Aria, quest 1), created through accept), the two amended properties hold
concretely. -/
theorem C8_enmendado_witness :
    (asignadas dbAcc 1 1 = [] →
      completarMision dbAcc 1 1
        = .error ⟨400, "El personaje no tiene asignada esta misión"⟩) ∧
    (∀ r, dbAcc.relaciones.Pairwise (fun a b => a.id ≠ b.id) →
      asignadas dbAcc 1 1 = [r] →
      ∀ db' g t, completarMision dbAcc 1 1 = .ok (db', g, t) →
        completarMision db' 1 1
          = .error ⟨400, "El personaje no tiene asignada esta misión"⟩) :=
  C8_enmendado dbAcc 1 1 ⟨1, "Aria", 0⟩ ⟨1, "Slay Dragon", "", 50⟩ rfl rfl

lemma actualizarMision_ok_personajes (db : DB) (id : Nat) (d : String)
    (db' : DB) (m : Mision) (h : actualizarMision db id d = .ok (db', m)) :
    db'.personajes = db.personajes := by
  cases hf : db.misiones.find? (fun x => x.id == id) with
  | none => simp only [actualizarMision, hf] at h; cases h
  | some m0 =>
    simp only [actualizarMision, hf] at h
    injection h with hpair
    injection hpair with h1 h2
    rw [← h1]

lemma eliminarMision_ok_personajes (db : DB) (id : Nat) (db' : DB)
    (h : eliminarMision db id = .ok db') : db'.personajes = db.personajes := by
  cases hf : db.misiones.find? (fun x => x.id == id) with
  | none => simp only [eliminarMision, hf] at h; cases h
  | some m0 =>
    simp only [eliminarMision, hf] at h
    injection h with h1
    rw [← h1]

lemma aceptarMision_ok_personajes (db : DB) (pid mid : Nat) (orden : Int)
    (db' : DB) (h : aceptarMision db pid mid orden = .ok db') :
    db'.personajes = db.personajes := by
  cases hf1 : db.personajes.find? (fun p => p.id == pid) with
  | none => simp only [aceptarMision, hf1] at h; cases h
  | some p =>
    cases hf2 : db.misiones.find? (fun x => x.id == mid) with
    | none => simp only [aceptarMision, hf1, hf2] at h; cases h
    | some m =>
      cases hf3 : db.relaciones.find? (fun r =>
          r.personaje_id == pid && r.mision_id == mid && r.estado == false) with
      | some r => simp only [aceptarMision, hf1, hf2, hf3] at h; cases h
      | none =>
        simp only [aceptarMision, hf1, hf2, hf3] at h
        injection h with h1
        rw [← h1]

lemma dequeue_ok_personajes (db : DB) (pid : Nat) (db' : DB) (mid : Nat)
    (h : ColaMisiones.dequeue db pid = .ok (db', mid)) :
    db'.personajes = db.personajes := by
  cases hf : firstAsc (pendientes db pid) with
  | none => simp only [ColaMisiones.dequeue, hf] at h; cases h
  | some r =>
    simp only [ColaMisiones.dequeue, hf] at h
    injection h with hpair
    injection hpair with h1 h2
    rw [← h1]

lemma completarMision_ok_shape (db : DB) (pid mid : Nat) (db' : DB) (g t : Int)
    (h : completarMision db pid mid = .ok (db', g, t)) :
    ∃ M, db.misiones.find? (fun m => m.id == mid) = some M ∧
      g = M.experiencia ∧
      db'.personajes = updateFirst (fun q => q.id == pid)
        (fun q => { q with experiencia := q.experiencia + M.experiencia })
        db.personajes := by
  cases hf1 : db.misiones.find? (fun m => m.id == mid) with
  | none => simp only [completarMision, hf1] at h; cases h
  | some M =>
    cases hf2 : db.personajes.find? (fun p => p.id == pid) with
    | none => simp only [completarMision, hf1, hf2] at h; cases h
    | some P =>
      cases hf3 : firstAsc (db.relaciones.filter (fun r =>
          r.personaje_id == pid && r.mision_id == mid && r.estado == false)) with
      | none => simp only [completarMision, hf1, hf2, hf3] at h; cases h
      | some r =>
        simp only [completarMision, hf1, hf2, hf3] at h
        by_cases hest : r.estado = true
        · rw [if_pos hest] at h
          cases h
        · rw [if_neg hest] at h
          injection h with hpair
          injection hpair with h1 hgt
          injection hgt with h2 h3
          exact ⟨M, rfl, h2.symm, by rw [← h1]⟩

/-- C9 counterexample: quest rewards are unrestricted integers, so a
character's accumulated experience can become negative.  In the reachable
state `dbNeg` (Aria accepted and completed a quest worth -5), Aria's
stored experience is -5 < 0. -/
theorem C9_contraejemplo :
    Reachable dbNeg ∧ ∃ p ∈ dbNeg.personajes, p.experiencia < 0 := by
  have h1 : Reachable dbAria :=
    Reachable.step Reachable.init (Step.creaPersonaje DB.empty "Aria")
  have h2 : Reachable dbNegQ :=
    Reachable.step h1 (Step.creaMision dbAria ⟨"Maldición", "", -5⟩)
  have ha : aceptarMision dbNegQ 1 1 0 = .ok dbNegA := rfl
  have hc : completarMision dbNegA 1 1 = .ok (dbNeg, -5, -5) := rfl
  have h3 : Reachable dbNegA :=
    Reachable.step h2 (Step.acepta dbNegQ dbNegA 1 1 0 ha)
  have h4 : Reachable dbNeg :=
    Reachable.step h3 (Step.completa dbNegA dbNeg 1 1 (-5) (-5) hc)
  exact ⟨h4, ⟨1, "Aria", -5⟩, List.mem_singleton.mpr rfl, by decide⟩

/-- C9 amended: a character's experience starts at 0 on creation and is
an integer (possibly negative — quest rewards are unrestricted); across
every state-mutating operation, the characters table is either untouched,
extended by one new character with experience 0, or — only for a
successful `completar_mision` — updated by adding the completed quest's
experience reward (of either sign) to the target character. -/
theorem C9_enmendado (db db' : DB) (h : Step db db') :
    db'.personajes = db.personajes
    ∨ (∃ nombre, db'.personajes
        = db.personajes ++ [⟨db.nextPersonajeId, nombre, 0⟩])
    ∨ (∃ pid mid g t M, completarMision db pid mid = .ok (db', g, t) ∧
        db.misiones.find? (fun m => m.id == mid) = some M ∧
        g = M.experiencia ∧
        db'.personajes = updateFirst (fun q => q.id == pid)
          (fun q => { q with experiencia := q.experiencia + M.experiencia })
          db.personajes) := by
  cases h with
  | creaMision m => exact Or.inl rfl
  | creaPersonaje nombre => exact Or.inr (Or.inl ⟨nombre, rfl⟩)
  | actualiza dbx id d m hh =>
    exact Or.inl (actualizarMision_ok_personajes _ _ _ _ _ hh)
  | elimina dbx id hh => exact Or.inl (eliminarMision_ok_personajes _ _ _ hh)
  | acepta dbx pid mid orden hh =>
    exact Or.inl (aceptarMision_ok_personajes _ _ _ _ _ hh)
  | completa dbx pid mid g t hh =>
    obtain ⟨M, h1, h2, h3⟩ := completarMision_ok_shape _ _ _ _ _ _ hh
    exact Or.inr (Or.inr ⟨pid, mid, g, t, M, hh, h1, h2, h3⟩)
  | encola pid mid => exact Or.inl rfl
  | desencola dbx pid mid hh =>
    exact Or.inl (dequeue_ok_personajes _ _ _ _ hh)

/-- C9 amended, witness: the creation step for "Aria" on the empty store
falls into the "new character with experience 0" case. -/
theorem C9_enmendado_witness :
    (crearPersonaje DB.empty "Aria").1.personajes = DB.empty.personajes
    ∨ (∃ nombre, (crearPersonaje DB.empty "Aria").1.personajes
        = DB.empty.personajes ++ [⟨DB.empty.nextPersonajeId, nombre, 0⟩])
    ∨ (∃ pid mid g t M,
        completarMision DB.empty pid mid
          = .ok ((crearPersonaje DB.empty "Aria").1, g, t) ∧
        DB.empty.misiones.find? (fun m => m.id == mid) = some M ∧
        g = M.experiencia ∧
        (crearPersonaje DB.empty "Aria").1.personajes
          = updateFirst (fun q => q.id == pid)
            (fun q => { q with experiencia := q.experiencia + M.experiencia })
            DB.empty.personajes) :=
  C9_enmendado DB.empty (crearPersonaje DB.empty "Aria").1
    (Step.creaPersonaje DB.empty "Aria")

/-- C10: the queue endpoints validate nothing: even when neither the
character nor the quest exists, `enqueue` inserts an assignment row
referencing them and reports its success message, while `size` and
`is_empty` simply answer from the count of pending rows (0 / empty for a
character with no rows) instead of failing NotFound. -/
theorem C10_cola_sin_validacion (db : DB) (pid mid : Nat)
    (hp : db.personajes.find? (fun p => p.id == pid) = none)
    (hm : db.misiones.find? (fun m => m.id == mid) = none) :
    (∃ o : Int, (ColaMisiones.enqueue db pid mid).1.relaciones
        = db.relaciones ++ [⟨db.nextRelacionId, pid, mid, o, false⟩]) ∧
    (ColaMisiones.enqueue db pid mid).2 = "Misión encolada correctamente" ∧
    ColaMisiones.size db pid = (pendientes db pid).length ∧
    (ColaMisiones.is_empty db pid = true ↔ pendientes db pid = []) ∧
    (db.relaciones.filter (fun r => r.personaje_id == pid) = [] →
      ColaMisiones.size db pid = 0 ∧ ColaMisiones.is_empty db pid = true) := by
  refine ⟨⟨_, rfl⟩, rfl, rfl, ?_, ?_⟩
  · simp [ColaMisiones.is_empty, pendientes, List.length_eq_zero]
  · intro h
    have hsub : pendientes db pid = [] := by
      rw [pendientes, List.filter_eq_nil_iff]
      intro a ha
      have hnp := List.filter_eq_nil_iff.mp h a ha
      intro hx
      simp only [Bool.and_eq_true] at hx
      exact hnp hx.1
    constructor
    · show (pendientes db pid).length = 0
      rw [hsub]
      rfl
    · show ((pendientes db pid).length == 0) = true
      rw [hsub]
      rfl

/-- C10, witness: on the empty store (character 1 and quest 2 are both
absent) all five conjuncts hold. -/
theorem C10_cola_sin_validacion_witness :
    (∃ o : Int, (ColaMisiones.enqueue DB.empty 1 2).1.relaciones
        = DB.empty.relaciones ++ [⟨DB.empty.nextRelacionId, 1, 2, o, false⟩]) ∧
    (ColaMisiones.enqueue DB.empty 1 2).2 = "Misión encolada correctamente" ∧
    ColaMisiones.size DB.empty 1 = (pendientes DB.empty 1).length ∧
    (ColaMisiones.is_empty DB.empty 1 = true ↔ pendientes DB.empty 1 = []) ∧
    (DB.empty.relaciones.filter (fun r => r.personaje_id == 1) = [] →
      ColaMisiones.size DB.empty 1 = 0 ∧ ColaMisiones.is_empty DB.empty 1 = true) :=
  C10_cola_sin_validacion DB.empty 1 2 rfl rfl

end Trabajo
